import Mathlib

/-!
Verification of the S-Lang compiler front-end (lexer and recursive-descent
parser) against its specification.  The definitions below are a shallow
embedding of `src/lexer.cpp`, `src/parser.cpp`, `include/lexer.hpp` and
`include/ast.hpp`: the C++ scanner state (`current_char`, the string
iterator) becomes an explicit `LexState`; the token-pulling parser becomes a
set of functions over the stream of tokens the lexer would produce; C++
exceptions become `Except` errors.  Reads past the end of the buffer yield
the NUL character, matching a null-terminated `std::string` buffer.
Unbounded loops and recursions are given an explicit fuel argument; fuel
exhaustion is a distinguished error that never occurs for the fuel supplied
by the wrappers.
-/

set_option linter.unusedVariables false

namespace SLang

/-- Token kinds, mirroring `enum class TokenType` in include/lexer.hpp. -/
inductive TokenType where
  | INT
  | FLOAT
  | BOOL
  | CHAR
  | STRING
  | ARRAY
  | DEF
  | EXTERN
  | OPERATOR
  | PROGRAM
  | LET
  | IDENTIFIER
  | IF
  | ELSEIF
  | ELSE
  | WHILE
  | FOR
  | BREAK
  | CONTINUE
  | RETURN
  | END_OF_FILE
  | EXITCODE
  | COMPLEX
deriving DecidableEq, Repr

/-- A token is a pair of a kind and its lexeme (`using Token = std::pair<TokenType, std::string>`). -/
abbrev Token := TokenType × String

/-- Errors the lexer can raise: `invalid_literal_error` from exceptions.hpp,
plus the fuel-exhaustion artifact of the embedding (never reached for the
fuel the wrappers supply). -/
inductive LexError where
  | invalidLiteral (msg : String)
  | outOfFuel
deriving DecidableEq, Repr

/-- Scanner state: the `current_char` register and the characters the string
iterator has not yet read.  Reading past the end yields NUL, as for a
null-terminated buffer. -/
structure LexState where
  curr : Char
  rest : List Char
deriving DecidableEq, Repr

/-- One `*(it++)` read: the next character of the buffer, or NUL past the end. -/
def nextChar : List Char → Char × List Char
  | [] => ('\x00', [])
  | c :: cs => (c, cs)

/-- C `isspace` over the ASCII range (space, \t, \n, \v, \f, \r). -/
def isSpaceS (c : Char) : Bool := c.toNat = 32 || (9 ≤ c.toNat && c.toNat ≤ 13)

/-- C `isdigit`. -/
def isDigitS (c : Char) : Bool := 48 ≤ c.toNat && c.toNat ≤ 57

/-- C `isalpha` over ASCII. -/
def isAlphaS (c : Char) : Bool :=
  (65 ≤ c.toNat && c.toNat ≤ 90) || (97 ≤ c.toNat && c.toNat ≤ 122)

/-- C `isalnum` over ASCII. -/
def isAlnumS (c : Char) : Bool := isAlphaS c || isDigitS c

/-- Lexer.cpp `is_operator`: the characters that may start an OPERATOR token. -/
def isOperatorChar (c : Char) : Bool :=
  c = '+' || c = '-' || c = '*' || c = '/' || c = '%' || c = '>' || c = '<' ||
  c = '=' || c = '!'

/-- Lexer.cpp `is_valid_next_char`: whether `next` may extend an operator
whose last character is `op`. -/
def isValidNextChar (op next : Char) : Bool :=
  if op = '<' || op = '>' || op = '=' || op = '!' then
    next = '\x00' || next = '='
  else if op = '+' || op = '-' || op = '*' || op = '/' || op = '%' || op = '^' then
    next = '\x00'
  else
    false

/-- Loop body of `Lexer::is_keyword`: compare `tmp` against each keyword
character, advancing the iterator after every successful comparison.  Returns
(matched, final tmp, remaining buffer). -/
def isKeywordGo (tmp : Char) (rest : List Char) : List Char → Bool × Char × List Char
  | [] => (true, tmp, rest)
  | ch :: ks =>
    if tmp ≠ ch ∨ tmp = '\x00' ∨ tmp = '\n' ∨ tmp = '\r' then (false, tmp, rest)
    else
      let (t2, rest2) := nextChar rest
      isKeywordGo t2 rest2 ks

/-- `Lexer::is_keyword`: on a full match `current_char` becomes the character
after the keyword; on a failure `current_char` is left unchanged although the
iterator has advanced past every matched character. -/
def isKeyword (kw : List Char) (st : LexState) : Bool × LexState :=
  match isKeywordGo st.curr st.rest kw with
  | (true, t, r) => (true, ⟨t, r⟩)
  | (false, _, r) => (false, ⟨st.curr, r⟩)

/-- The whitespace-skipping loop at the top of `Lexer::get_token`. -/
def skipWs (c : Char) (rest : List Char) : Char × List Char :=
  if isSpaceS c then
    match rest with
    | [] => ('\x00', [])
    | c2 :: rest2 => skipWs c2 rest2
  else (c, rest)

/-- The `Cancelled` single-line comment skip: read characters until NUL, \n
or \r (a do-while, so the incoming `current_char` is overwritten first). -/
def skipLine : List Char → Char × List Char
  | [] => ('\x00', [])
  | c :: cs => if c = '\x00' ∨ c = '\n' ∨ c = '\r' then (c, cs) else skipLine cs

/-- The `Blocked` comment skip: read a character, stop on NUL or when
`is_keyword("Unblocked")` matches.  Fueled; each iteration consumes at least
one buffer character, so the fuel supplied at the call site suffices. -/
def skipBlockedF : Nat → List Char → Char × List Char
  | 0, rest => ('\x00', rest)
  | fuel+1, rest =>
    let (c, rest2) := nextChar rest
    if c = '\x00' then (c, rest2)
    else
      match isKeyword "Unblocked".data ⟨c, rest2⟩ with
      | (true, st) => (st.curr, st.rest)
      | (false, st) => skipBlockedF fuel st.rest

/-- The keyword table of include/lexer.hpp (`Lexer::table`). -/
def table : List (String × TokenType) :=
  [("pluh", .DEF),
   ("plug", .EXTERN),
   ("cookUp", .LET),
   ("fr?", .IF),
   ("ong?", .ELSEIF),
   ("justLikeThat?", .ELSE),
   ("holdUp", .WHILE),
   ("ratioed", .FOR),
   ("ghost", .BREAK),
   ("rizz", .CONTINUE),
   ("periodt", .RETURN),
   ("facts", .BOOL),
   ("cap", .BOOL),
   ("spillingTheTeaAbout", .PROGRAM),
   ("gang", .ARRAY),
   ("yeet", .EXITCODE)]

/-- Keyword lookup (`table.find(identifier)`). -/
def lookupTable (s : String) : Option TokenType :=
  (table.find? (fun p => p.1 = s)).map (fun p => p.2)

/-- The string-literal accumulation loop: gather characters until the closing
quote; NUL first is an `invalid_literal_error`.  `c` is the character just
read, `acc` the accumulated contents. -/
def scanStr (c : Char) (rest : List Char) (acc : List Char) :
    Except LexError ((TokenType × String) × LexState) :=
  if c = '"' then
    .ok ((.STRING, String.mk acc), ⟨(nextChar rest).1, (nextChar rest).2⟩)
  else if c = '\x00' then
    .error (.invalidLiteral ("Invalid string token: " ++ String.mk acc))
  else
    match rest with
    | [] =>
      -- the next read yields NUL, which the following iteration rejects
      .error (.invalidLiteral ("Invalid string token: " ++ String.mk (acc ++ [c])))
    | c2 :: rest2 => scanStr c2 rest2 (acc ++ [c])

/-- The numeric-literal do-while loop: accumulate digits and at most one dot;
a second dot is an `invalid_literal_error`.  `c` is `current_char` on entry to
the loop body, `dec` the `decimal_found` flag, `acc` the accumulated lexeme. -/
def scanNum (c : Char) (rest : List Char) (dec : Bool) (acc : List Char) :
    Except LexError ((TokenType × String) × LexState) :=
  if c = '\x00' then
    .error (.invalidLiteral ("Invalid number token: " ++ String.mk acc))
  else if c = '.' ∧ dec then
    .error (.invalidLiteral ("More than one decimal point in number: " ++ String.mk acc))
  else
    let dec2 := dec || c = '.'
    let acc2 := acc ++ [c]
    match rest with
    | [] =>
      .ok ((if dec2 then .FLOAT else .INT, String.mk acc2), ⟨'\x00', []⟩)
    | c2 :: rest2 =>
      if isDigitS c2 || c2 = '.' then scanNum c2 rest2 dec2 acc2
      else .ok ((if dec2 then .FLOAT else .INT, String.mk acc2), ⟨c2, rest2⟩)

/-- The identifier accumulation loop:
`while (isalnum(current_char = *(it++)) || current_char == '_' || current_char == '?')`. -/
def scanIdent (rest : List Char) (acc : List Char) : List Char × Char × List Char :=
  match rest with
  | [] => (acc, '\x00', [])
  | c :: rest2 =>
    if isAlnumS c || c = '_' || c = '?' then scanIdent rest2 (acc ++ [c])
    else (acc, c, rest2)

/-- The operator accumulation loop:
`while (is_valid_next_char(op.back(), current_char)) { op += current_char; ... }`.
Fueled; at most `rest.length + 2` iterations can run. -/
def scanOpF : Nat → List Char → Char → List Char → List Char × Char × List Char
  | 0, op, c, rest => (op, c, rest)
  | fuel+1, op, c, rest =>
    if isValidNextChar (op.getLastD '\x00') c then
      let (c2, rest2) := nextChar rest
      scanOpF fuel (op ++ [c]) c2 rest2
    else (op, c, rest)

/-- The part of `Lexer::get_token` after the comment handling: character,
string and numeric literals, identifiers and keywords, end of file, operators
and COMPLEX single characters. -/
def getTokenCore (st : LexState) : Except LexError (Token × LexState) :=
  let c := st.curr
  let rest := st.rest
  if c = '\'' then
    let (c1, r1) := nextChar rest
    let (c2, r2) := nextChar r1
    if c2 ≠ '\'' then
      .error (.invalidLiteral ("Invalid char token: " ++ String.mk [c1]))
    else
      let (c3, r3) := nextChar r2
      .ok ((.CHAR, String.mk [c1]), ⟨c3, r3⟩)
  else if c = '"' then
    let (c1, r1) := nextChar rest
    scanStr c1 r1 []
  else if isDigitS c || c = '.' then
    scanNum c rest false []
  else if isAlphaS c then
    let (ident, c2, rest2) := scanIdent rest [c]
    let lexeme := String.mk ident
    let kind := (lookupTable lexeme).getD .IDENTIFIER
    .ok ((kind, lexeme), ⟨c2, rest2⟩)
  else if c = '\x00' then
    .ok ((.END_OF_FILE, ""), st)
  else
    let (c2, rest2) := nextChar rest
    if ¬ isOperatorChar c then
      .ok ((.COMPLEX, String.mk [c]), ⟨c2, rest2⟩)
    else
      let (op, c3, rest3) := scanOpF (rest2.length + 2) [c] c2 rest2
      .ok ((.OPERATOR, String.mk op), ⟨c3, rest3⟩)

/-- After a matched `Cancelled`, skip the rest of the line; the Bool says
whether get_token must re-invoke itself (the comment ended before NUL). -/
def cancelledSkip (st : LexState) : Bool × LexState :=
  let (c1, r1) := skipLine st.rest
  (c1 ≠ '\x00', (⟨c1, r1⟩ : LexState))

/-- After a matched `Blocked`, skip until `Unblocked` (or NUL); the Bool says
whether get_token must re-invoke itself. -/
def blockedSkip (st : LexState) : Bool × LexState :=
  let (c2, r2) := skipBlockedF (st.rest.length + 1) st.rest
  (c2 ≠ '\x00', (⟨c2, r2⟩ : LexState))

/-- The whitespace-and-comments prefix of `Lexer::get_token`: skip
whitespace, try `Cancelled`, then (unless that comment demands a fresh
get_token call) try `Blocked`.  Returns (re-invoke?, resulting state). -/
def commentStep (st : LexState) : Bool × LexState :=
  let (c0, r0) := skipWs st.curr st.rest
  let (hitC, stC) := isKeyword "Cancelled".data ⟨c0, r0⟩
  let (retC, st1) := if hitC then cancelledSkip stC else (false, stC)
  if retC then (true, st1)
  else
    let (hitB, stB) := isKeyword "Blocked".data st1
    if hitB then blockedSkip stB else (false, stB)

/-- `Lexer::get_token`.  Runs the whitespace/comment prefix, re-invoking
itself (with one unit of fuel consumed) when a comment ended before NUL,
then dispatches to `getTokenCore`. -/
def getTokenF : Nat → LexState → Except LexError (Token × LexState)
  | 0, _ => .error .outOfFuel
  | fuel+1, st =>
    match commentStep st with
    | (true, st2) => getTokenF fuel st2
    | (false, st2) => getTokenCore st2

/-- One `get_token` call with enough fuel for any chain of comments the
remaining buffer could hold. -/
def getToken (st : LexState) : Except LexError (Token × LexState) :=
  getTokenF (st.rest.length + 2) st

/-- The scanner state of a freshly constructed `Lexer`: `current_char` is a
space and the iterator is at the start of the buffer. -/
def initState (s : String) : LexState := ⟨' ', s.data⟩

/-- Pull tokens until END_OF_FILE (exclusive), as the parser would. -/
def tokenizeF : Nat → LexState → Except LexError (List Token)
  | 0, _ => .error .outOfFuel
  | fuel+1, st =>
    match getToken st with
    | .error e => .error e
    | .ok (t, st2) =>
      if t.1 = TokenType.END_OF_FILE then .ok []
      else
        match tokenizeF fuel st2 with
        | .error e => .error e
        | .ok ts => .ok (t :: ts)

/-- The full token stream of a source text. -/
def tokenize (s : String) : Except LexError (List Token) :=
  tokenizeF (s.length + 2) (initState s)

/-- Expressions (the `Expression` variant of ast.hpp).  The `Literal<double>`
payload is kept as the raw token lexeme: no claim concerns floating-point
values, so `std::stod` is not modelled. -/
inductive Expr where
  | litInt (v : Int)
  | litFloat (lexeme : String)
  | litBool (v : Bool)
  | litChar (v : Char)
  | litStr (v : String)
  | var (name : String)
  | unary (op : String) (rhs : Expr)
  | binary (op : String) (lhs rhs : Expr)
  | call (callee : String) (args : List Expr)

/-- Statements (the `Statement` variant of ast.hpp). -/
inductive Stmt where
  | cookedUp (varName varType : String)
  | assign (varName : String) (e : Expr)
  | cookedUpAssign (varName varType : String) (e : Expr)
  | frOng (cond : Expr) (thenS elseS : Stmt)
  | holdUp (cond : Expr) (body : Stmt)
  | ghost
  | rizz
  | yeet (e : Expr)
  | compound (stmts : List Stmt)

/-- An argument of a prototype: (name, type-name), both strings. -/
abbrev Argument := String × String

/-- A function prototype: name, arguments, return type. -/
structure Prototype where
  name : String
  args : List Argument
  returnType : String
deriving DecidableEq, Repr

/-- A function declaration: prototype plus optional body. -/
structure PluhDeclaration where
  proto : Prototype
  body : Option Stmt

/-- The program root: module name and the function declarations. -/
structure TeaSpill where
  name : String
  decls : List PluhDeclaration

/-- Parser errors: `parse_logic_error`, the catch-all handlers that abort on
any other exception (e.g. `std::out_of_range` from `std::stoi`), and the
fuel-exhaustion artifact of the embedding. -/
inductive PErr where
  | parseLogic (msg : String)
  | fatal (msg : String)
  | outOfFuel
deriving DecidableEq, Repr

/-- The parser's view of its token source: the tokens not yet consumed.
`current_token` is the head; after the end the lexer keeps producing
END_OF_FILE, which `peekT` models. -/
abbrev PState := List Token

/-- The `current_token` register. -/
def peekT (st : PState) : Token := st.headD (.END_OF_FILE, "")

/-- `current_token = lexer.get_token()`. -/
def advT (st : PState) : PState := st.tail

/-- Parser::get_op_precedence — decided by the lexeme of the current token. -/
def getOpPrecedence (t : Token) : Int :=
  if t.2 = "<" ∨ t.2 = "<=" ∨ t.2 = ">" ∨ t.2 = ">=" ∨ t.2 = "==" ∨ t.2 = "!=" then 10
  else if t.2 = "+" ∨ t.2 = "-" then 20
  else if t.2 = "*" ∨ t.2 = "/" ∨ t.2 = "%" then 40
  else -1

/-- The numeric value of a digit string (most significant digit first). -/
def natOfDigits : List Char → Nat → Nat
  | [], acc => acc
  | c :: cs, acc => natOfDigits cs (acc * 10 + (c.toNat - 48))

/-- Model of `std::stoi` on the all-digit lexemes of INT tokens: the denoted
value when it fits in a C `int` (32 bits on the reference platform),
otherwise the `std::out_of_range` exception. -/
def stoiInt (s : String) : Except Unit Int :=
  let v := natOfDigits s.data 0
  if v ≤ 2147483647 then .ok (Int.ofNat v) else .error ()

/-- Parser::parse_int. -/
def parseIntP (st : PState) : Except PErr (Expr × PState) :=
  match stoiInt (peekT st).2 with
  | .ok v => .ok (.litInt v, advT st)
  | .error _ => .error (.fatal ("Unknown exception parsing int: " ++ (peekT st).2))

/-- Parser::parse_float. -/
def parseFloatP (st : PState) : Except PErr (Expr × PState) :=
  .ok (.litFloat (peekT st).2, advT st)

/-- Parser::parse_bool — the lexeme is compared against the string "true". -/
def parseBoolP (st : PState) : Except PErr (Expr × PState) :=
  .ok (.litBool ((peekT st).2 = "true"), advT st)

/-- Parser::parse_char — `current_token.second[0]`. -/
def parseCharP (st : PState) : Except PErr (Expr × PState) :=
  .ok (.litChar ((peekT st).2.data.headD '\x00'), advT st)

/-- Parser::parse_string. -/
def parseStringP (st : PState) : Except PErr (Expr × PState) :=
  .ok (.litStr (peekT st).2, advT st)

mutual

/-- Parser::parse_expression. -/
def parseExpressionF : Nat → PState → Except PErr (Expr × PState)
  | 0, _ => .error .outOfFuel
  | f+1, st =>
    match parseUnaryF f st with
    | .error e => .error e
    | .ok (lhs, st1) => parseBinaryOpRhsF f 0 lhs st1

/-- Parser::parse_parentheses_expression. -/
def parseParenExprF : Nat → PState → Except PErr (Expr × PState)
  | 0, _ => .error .outOfFuel
  | f+1, st =>
    match parseExpressionF f (advT st) with
    | .error e => .error e
    | .ok (node, st2) =>
      if (peekT st2).2 ≠ ")" then
        .error (.parseLogic ("Expected ) parsing parentheses expression, got: " ++ (peekT st2).2))
      else .ok (node, advT st2)

/-- Parser::parse_atomic_type. -/
def parseAtomicF : Nat → PState → Except PErr (Expr × PState)
  | 0, _ => .error .outOfFuel
  | f+1, st =>
    match (peekT st).1 with
    | .IDENTIFIER => parseIdentOrCallF f st
    | .INT => parseIntP st
    | .FLOAT => parseFloatP st
    | .BOOL => parseBoolP st
    | .CHAR => parseCharP st
    | .STRING => parseStringP st
    | .COMPLEX =>
      if (peekT st).2 = "(" then parseParenExprF f st
      else .error (.parseLogic ("Expected ( parsing a complex type, got: " ++ (peekT st).2))
    | _ => .error (.parseLogic ("Unknown token parsing atomic type, got: " ++ (peekT st).2))

/-- Parser::parse_unary_expression — dispatches on the lexeme of the current
token; rejects unary operators applied to CHAR or STRING. -/
def parseUnaryF : Nat → PState → Except PErr (Expr × PState)
  | 0, _ => .error .outOfFuel
  | f+1, st =>
    if (peekT st).2 = "+" ∨ (peekT st).2 = "-" ∨ (peekT st).2 = "!" then
      let op := peekT st
      let st1 := advT st
      if (peekT st1).1 = TokenType.CHAR ∨ (peekT st1).1 = TokenType.STRING then
        .error (.parseLogic ("Unary operator cannot be applied to char or string: " ++ (peekT st1).2))
      else
        match parseUnaryF f st1 with
        | .error e => .error e
        | .ok (rhs, st2) => .ok (.unary op.2 rhs, st2)
    else parseAtomicF f st

/-- Parser::parse_binary_op_rhs — the `while(true)` operator-climbing loop,
written as tail recursion on the fuel. -/
def parseBinaryOpRhsF : Nat → Int → Expr → PState → Except PErr (Expr × PState)
  | 0, _, _, _ => .error .outOfFuel
  | f+1, exprPrec, lhs, st =>
    let tokPrec := getOpPrecedence (peekT st)
    if tokPrec < exprPrec then .ok (lhs, st)
    else
      let op := peekT st
      let st1 := advT st
      match parseUnaryF f st1 with
      | .error e => .error e
      | .ok (rhs, st2) =>
        let nextPrec := getOpPrecedence (peekT st2)
        if tokPrec < nextPrec then
          match parseBinaryOpRhsF f (tokPrec + 1) rhs st2 with
          | .error e => .error e
          | .ok (rhs2, st3) => parseBinaryOpRhsF f exprPrec (.binary op.2 lhs rhs2) st3
        else parseBinaryOpRhsF f exprPrec (.binary op.2 lhs rhs) st2

/-- The `while(true)` loop of Parser::parse_argument_call_list. -/
def parseArgLoopF : Nat → List Expr → PState → Except PErr (List Expr × PState)
  | 0, _, _ => .error .outOfFuel
  | f+1, args, st =>
    match parseExpressionF f st with
    | .error e => .error e
    | .ok (arg, st1) =>
      if (peekT st1).2 = ")" then .ok (args ++ [arg], st1)
      else if (peekT st1).2 ≠ "," then
        .error (.parseLogic ("Expected , or ) parsing argument call list, got: " ++ (peekT st1).2))
      else parseArgLoopF f (args ++ [arg]) (advT st1)

/-- Parser::parse_argument_call_list, including the final step past `)`. -/
def parseArgListF : Nat → PState → Except PErr (List Expr × PState)
  | 0, _ => .error .outOfFuel
  | f+1, st =>
    if (peekT st).2 ≠ ")" then
      match parseArgLoopF f [] st with
      | .error e => .error e
      | .ok (args, st1) => .ok (args, advT st1)
    else .ok ([], advT st)

/-- Parser::parse_identifier_or_pluh_call. -/
def parseIdentOrCallF : Nat → PState → Except PErr (Expr × PState)
  | 0, _ => .error .outOfFuel
  | f+1, st =>
    let ident := (peekT st).2
    let st1 := advT st
    if (peekT st1).2 ≠ "(" then .ok (.var ident, st1)
    else
      match parseArgListF f (advT st1) with
      | .error e => .error e
      | .ok (args, st2) => .ok (.call ident args, st2)

end

/-- Parser::parse_ghost. -/
def parseGhostP (st : PState) : Except PErr (Stmt × PState) :=
  .ok (.ghost, advT st)

/-- Parser::parse_rizz. -/
def parseRizzP (st : PState) : Except PErr (Stmt × PState) :=
  .ok (.rizz, advT st)

/-- Whether the last statement of a block is a `YeetStatement`
(`std::holds_alternative<std::unique_ptr<YeetStatement>>(statements.back())`). -/
def lastIsYeet (ss : List Stmt) : Bool :=
  match ss.getLast? with
  | some (.yeet _) => true
  | _ => false

mutual

/-- Parser::parse_statement — dispatch on the kind of the current token.
Note every COMPLEX token is routed to the compound parser, and the EXITCODE
kind (lexeme `yeet`) falls into the default error branch. -/
def parseStatementF : Nat → PState → Except PErr (Stmt × PState)
  | 0, _ => .error .outOfFuel
  | f+1, st =>
    match (peekT st).1 with
    | .LET => parseCookUpF f st
    | .IDENTIFIER => parseAssignOrCallF f st
    | .IF => parseFrOngJustLikeThatF f st
    | .WHILE => parseHoldUpF f st
    | .BREAK => parseGhostP st
    | .CONTINUE => parseRizzP st
    | .RETURN => parseYeetF f st
    | .COMPLEX =>
      match parseCurlyCompoundF f st with
      | .error e => .error e
      | .ok ((stmts, _), st1) => .ok (.compound stmts, st1)
    | _ => .error (.parseLogic ("Unknown token parsing statement, got: " ++ (peekT st).2))

/-- Parser::parse_cookup_or_cookupassign.  The token in the `:` position is
discarded without being checked. -/
def parseCookUpF : Nat → PState → Except PErr (Stmt × PState)
  | 0, _ => .error .outOfFuel
  | f+1, st =>
    let st1 := advT st
    let varName := (peekT st1).2
    let st3 := advT (advT st1)
    let typeName := (peekT st3).2
    let st4 := advT st3
    if (peekT st4).2 = "=" then
      match parseExpressionF f (advT st4) with
      | .error e => .error e
      | .ok (e, st5) => .ok (.cookedUpAssign varName typeName e, st5)
    else .ok (.cookedUp varName typeName, st4)

/-- Parser::parse_assignment_or_call. -/
def parseAssignOrCallF : Nat → PState → Except PErr (Stmt × PState)
  | 0, _ => .error .outOfFuel
  | f+1, st =>
    let varName := (peekT st).2
    let st1 := advT st
    if (peekT st1).2 = "=" then
      match parseExpressionF f (advT st1) with
      | .error e => .error e
      | .ok (e, st2) => .ok (.assign varName e, st2)
    else if (peekT st1).2 = "(" then
      match parseArgListF f (advT st1) with
      | .error e => .error e
      | .ok (args, st2) => .ok (.assign "@" (.call varName args), st2)
    else
      .error (.parseLogic ("Expected = or ( parsing assignment or call, got: " ++ (peekT st1).2))

/-- Parser::parse_fr_ong_justlikethat.  The then-branch is always a curly
compound; the else-branch is parsed only when the current token's kind is
ELSE (an ELSEIF token is left in the stream and the else-branch is an empty
compound). -/
def parseFrOngJustLikeThatF : Nat → PState → Except PErr (Stmt × PState)
  | 0, _ => .error .outOfFuel
  | f+1, st =>
    match parseExpressionF f (advT st) with
    | .error e => .error e
    | .ok (cond, st1) =>
      match parseCurlyCompoundF f st1 with
      | .error e => .error e
      | .ok ((thenStmts, _), st2) =>
        if (peekT st2).1 ≠ TokenType.ELSE then
          .ok (.frOng cond (.compound thenStmts) (.compound []), st2)
        else
          match parseStatementF f (advT st2) with
          | .error e => .error e
          | .ok (elseStmt, st3) => .ok (.frOng cond (.compound thenStmts) elseStmt, st3)

/-- Parser::parse_holdup. -/
def parseHoldUpF : Nat → PState → Except PErr (Stmt × PState)
  | 0, _ => .error .outOfFuel
  | f+1, st =>
    match parseExpressionF f (advT st) with
    | .error e => .error e
    | .ok (cond, st1) =>
      match parseCurlyCompoundF f st1 with
      | .error e => .error e
      | .ok ((bodyStmts, _), st2) => .ok (.holdUp cond (.compound bodyStmts), st2)

/-- Parser::parse_yeet. -/
def parseYeetF : Nat → PState → Except PErr (Stmt × PState)
  | 0, _ => .error .outOfFuel
  | f+1, st =>
    match parseExpressionF f (advT st) with
    | .error e => .error e
    | .ok (e, st1) => .ok (.yeet e, st1)

/-- The statement-collecting loop of Parser::parse_curly_compound:
`while (current_token.second != "\x7d")`. -/
def parseStmtListF : Nat → PState → Except PErr (List Stmt × PState)
  | 0, _ => .error .outOfFuel
  | f+1, st =>
    if (peekT st).2 = "\x7d" then .ok ([], st)
    else
      match parseStatementF f st with
      | .error e => .error e
      | .ok (s, st1) =>
        match parseStmtListF f st1 with
        | .error e => .error e
        | .ok (ss, st2) => .ok (s :: ss, st2)

/-- Parser::parse_curly_compound.  The token in the `{` position is discarded
without being checked; the out-parameter `returntype` becomes the second
component of the result. -/
def parseCurlyCompoundF : Nat → PState → Except PErr ((List Stmt × String) × PState)
  | 0, _ => .error .outOfFuel
  | f+1, st =>
    match parseStmtListF f (advT st) with
    | .error e => .error e
    | .ok (stmts, st1) =>
      let returntype := if !stmts.isEmpty && lastIsYeet stmts then "nonnpc" else "npc"
      .ok ((stmts, returntype), advT st1)

end

/-- The argument loop of Parser::parse_prototype. -/
def protoArgsF : Nat → List Argument → PState → Except PErr (List Argument × PState)
  | 0, _, _ => .error .outOfFuel
  | f+1, args, st =>
    let st1 := advT st
    if (peekT st1).1 = TokenType.IDENTIFIER then
      let varName := (peekT st1).2
      let st2 := advT st1
      if (peekT st2).2 ≠ ":" then
        .error (.parseLogic ("Expected : after argument name in prototype, instead got: " ++
          (peekT st2).2))
      else
        let st3 := advT st2
        let typeName := (peekT st3).2
        let st4 := advT st3
        if (peekT st4).2 ≠ "," then .ok (args ++ [(varName, typeName)], st4)
        else protoArgsF f (args ++ [(varName, typeName)]) st4
    else .ok (args, st1)

/-- Parser::parse_prototype. -/
def parsePrototypeF (fuel : Nat) (st : PState) : Except PErr (Prototype × PState) :=
  if (peekT st).1 ≠ TokenType.IDENTIFIER then
    .error (.parseLogic ("Expected identifier in prototype, instead got: " ++ (peekT st).2))
  else
    let funcName := (peekT st).2
    let st1 := advT st
    if (peekT st1).2 ≠ "(" then
      .error (.parseLogic ("Expected ( in prototype, instead got: " ++ (peekT st1).2))
    else
      match protoArgsF fuel [] st1 with
      | .error e => .error e
      | .ok (args, st2) =>
        if (peekT st2).2 ≠ ")" then
          .error (.parseLogic ("Expected ) in prototype, instead got: " ++ (peekT st2).2))
        else
          let st3 := advT st2
          if (peekT st3).2 ≠ ":" then
            .error (.parseLogic ("Expected : after args in prototype, instead got: " ++
              (peekT st3).2))
          else
            let st4 := advT st3
            let returnType := (peekT st4).2
            .ok (⟨funcName, args, returnType⟩, advT st4)

/-- Parser::parse_pluh — prototype, body, then the shallow return-type check:
reject when the declared type is not `npc` but the body's marker is `npc`, or
the declared type is `npc` but the marker is `nonnpc`. -/
def parsePluhF : Nat → PState → Except PErr (PluhDeclaration × PState)
  | 0, _ => .error .outOfFuel
  | f+1, st =>
    match parsePrototypeF f (advT st) with
    | .error e => .error e
    | .ok (proto, st1) =>
      match parseCurlyCompoundF f st1 with
      | .error e => .error e
      | .ok ((stmts, actual), st2) =>
        if (proto.returnType ≠ "npc" ∧ actual = "npc") ∨
           (proto.returnType = "npc" ∧ actual = "nonnpc") then
          .error (.parseLogic ("Expected return type " ++ proto.returnType ++ " for pluh: " ++
            proto.name))
        else .ok (⟨proto, some (.compound stmts)⟩, st2)

/-- Parser::parse_plug — an external declaration has no body. -/
def parsePlugF : Nat → PState → Except PErr (PluhDeclaration × PState)
  | 0, _ => .error .outOfFuel
  | f+1, st =>
    match parsePrototypeF f (advT st) with
    | .error e => .error e
    | .ok (proto, st1) => .ok (⟨proto, none⟩, st1)

/-- Parser::parse_declarations. -/
def parseDeclarationsF : Nat → PState → Except PErr (List PluhDeclaration × PState)
  | 0, _ => .error .outOfFuel
  | f+1, st =>
    if (peekT st).1 = TokenType.DEF then
      match parsePluhF f st with
      | .error e => .error e
      | .ok (d, st1) =>
        match parseDeclarationsF f st1 with
        | .error e => .error e
        | .ok (ds, st2) => .ok (d :: ds, st2)
    else if (peekT st).1 = TokenType.EXTERN then
      match parsePlugF f st with
      | .error e => .error e
      | .ok (d, st1) =>
        match parseDeclarationsF f st1 with
        | .error e => .error e
        | .ok (ds, st2) => .ok (d :: ds, st2)
    else if (peekT st).1 = TokenType.END_OF_FILE then .ok ([], st)
    else .error (.parseLogic "Expected pluh or plug parsing all declarations!")

/-- Parser::parse_tea — the top-level entry point. -/
def parseTeaF : Nat → PState → Except PErr (TeaSpill × PState)
  | 0, _ => .error .outOfFuel
  | f+1, st =>
    if (peekT st).1 ≠ TokenType.PROGRAM then
      .error (.parseLogic "Expected program for parsing Tea!")
    else
      let st1 := advT st
      let name := (peekT st1).2
      match parseDeclarationsF f (advT st1) with
      | .error e => .error e
      | .ok (ds, st3) => .ok (⟨name, ds⟩, st3)

/-- The structural invariant of parsed statements: every then-branch of an
`If` and every body of a `While` is a `Compound`, recursively (the
else-branch may be any statement, itself well-formed). -/
inductive GoodStmt : Stmt → Prop where
  | cookedUp : ∀ n t, GoodStmt (.cookedUp n t)
  | assign : ∀ n e, GoodStmt (.assign n e)
  | cookedUpAssign : ∀ n t e, GoodStmt (.cookedUpAssign n t e)
  | frOng : ∀ c ss e, (∀ s ∈ ss, GoodStmt s) → GoodStmt e →
      GoodStmt (.frOng c (.compound ss) e)
  | holdUp : ∀ c ss, (∀ s ∈ ss, GoodStmt s) → GoodStmt (.holdUp c (.compound ss))
  | ghost : GoodStmt .ghost
  | rizz : GoodStmt .rizz
  | yeet : ∀ e, GoodStmt (.yeet e)
  | compound : ∀ ss, (∀ s ∈ ss, GoodStmt s) → GoodStmt (.compound ss)

/-- The invariant at the declaration level: a present function body is a
well-formed `Compound`. -/
def GoodDecl (d : PluhDeclaration) : Prop :=
  ∀ b, d.body = some b → (∃ ss, b = Stmt.compound ss) ∧ GoodStmt b

/-- The character class accepted after the first character of an identifier. -/
def isIdentTail (c : Char) : Bool := isAlnumS c || c = '_' || c = '?'

/-- The tokens of the C2 input `fr? 1 { ghost } ong? 2 { rizz } justLikeThat? { ghost }`. -/
def c2Toks : List Token :=
  [(.IF, "fr?"), (.INT, "1"), (.COMPLEX, "\x7b"), (.BREAK, "ghost"), (.COMPLEX, "\x7d"),
   (.ELSEIF, "ong?"), (.INT, "2"), (.COMPLEX, "\x7b"), (.CONTINUE, "rizz"), (.COMPLEX, "\x7d"),
   (.ELSE, "justLikeThat?"), (.COMPLEX, "\x7b"), (.BREAK, "ghost"), (.COMPLEX, "\x7d")]

/-- Claim C1, counterexample: lexing `yeet 1337` yields an EXITCODE token for
`yeet`, not a RETURN token as the claim states. -/
theorem c1_counterexample :
    tokenize "yeet 1337" = .ok [(TokenType.EXITCODE, "yeet"), (TokenType.INT, "1337")] ∧
    TokenType.EXITCODE ≠ TokenType.RETURN := by
  exact ⟨rfl, by decide⟩

/-- Claim C1, amended: the keyword table classifies `yeet` as EXITCODE (it is
`periodt` that is classified as RETURN), and lexing `yeet 1337` yields
exactly (EXITCODE,"yeet"), (INT,"1337"), then END_OF_FILE. -/
theorem c1_amended :
    lookupTable "yeet" = some TokenType.EXITCODE ∧
    lookupTable "periodt" = some TokenType.RETURN ∧
    tokenize "yeet 1337" = .ok [(TokenType.EXITCODE, "yeet"), (TokenType.INT, "1337")] ∧
    getToken ⟨'\x00', []⟩ = .ok ((TokenType.END_OF_FILE, ""), ⟨'\x00', []⟩) := by
  exact ⟨rfl, rfl, rfl, rfl⟩

/-- Claim C2, evaluation at the failing input
`fr? 1 { ghost } ong? 2 { rizz } justLikeThat? { ghost }`: the parser
produces `If(1, Compound[Break], Compound[])` — an empty else-branch instead
of the claimed nested chain — leaving the ELSEIF token `ong?` unconsumed,
and a following parse_statement call on the leftover fails with ParseLogic. -/
theorem c2_failing_input :
    tokenize "fr? 1 { ghost } ong? 2 { rizz } justLikeThat? { ghost }" = .ok c2Toks ∧
    parseStatementF 30 c2Toks =
      .ok (.frOng (.litInt 1) (.compound [.ghost]) (.compound []), c2Toks.drop 5) ∧
    peekT (c2Toks.drop 5) = (TokenType.ELSEIF, "ong?") ∧
    parseStatementF 30 (c2Toks.drop 5) =
      .error (.parseLogic "Unknown token parsing statement, got: ong?") ∧
    parseStmtListF 30 (c2Toks ++ [(TokenType.COMPLEX, "\x7d")]) =
      .error (.parseLogic "Unknown token parsing statement, got: ong?") := by
  exact ⟨rfl, rfl, rfl, rfl, rfl⟩

/-- Claim C3, evaluation at the failing input: `parse_bool` compares the
lexeme against the string "true", which matches neither `facts` nor `cap`,
so both parse to `Lit(bool, false)`; the claim (and the keyword-table
comment) requires `facts` to produce `Lit(bool, true)`. -/
theorem c3_facts_cap_both_false :
    tokenize "facts" = .ok [(TokenType.BOOL, "facts")] ∧
    tokenize "cap" = .ok [(TokenType.BOOL, "cap")] ∧
    parseExpressionF 5 [(TokenType.BOOL, "facts")] = .ok (.litBool false, []) ∧
    parseExpressionF 5 [(TokenType.BOOL, "cap")] = .ok (.litBool false, []) ∧
    parseBoolP [(TokenType.BOOL, "facts")] = .ok (.litBool false, []) := by
  exact ⟨rfl, rfl, rfl, rfl, rfl⟩

/-- Claim C5: the precedence table assigns 10 to comparisons, 20 to additive
and 40 to multiplicative operators; `1 + 2 * 3` parses as
`Binary("+", 1, Binary("*", 2, 3))` and `1 - 2 - 3` parses left-associated as
`Binary("-", Binary("-", 1, 2), 3)`. -/
theorem c5_precedence_left_assoc :
    getOpPrecedence (TokenType.OPERATOR, "<") = 10 ∧
    getOpPrecedence (TokenType.OPERATOR, "<=") = 10 ∧
    getOpPrecedence (TokenType.OPERATOR, ">") = 10 ∧
    getOpPrecedence (TokenType.OPERATOR, ">=") = 10 ∧
    getOpPrecedence (TokenType.OPERATOR, "==") = 10 ∧
    getOpPrecedence (TokenType.OPERATOR, "!=") = 10 ∧
    getOpPrecedence (TokenType.OPERATOR, "+") = 20 ∧
    getOpPrecedence (TokenType.OPERATOR, "-") = 20 ∧
    getOpPrecedence (TokenType.OPERATOR, "*") = 40 ∧
    getOpPrecedence (TokenType.OPERATOR, "/") = 40 ∧
    getOpPrecedence (TokenType.OPERATOR, "%") = 40 ∧
    tokenize "1 + 2 * 3" =
      .ok [(.INT, "1"), (.OPERATOR, "+"), (.INT, "2"), (.OPERATOR, "*"), (.INT, "3")] ∧
    parseExpressionF 20
      [(.INT, "1"), (.OPERATOR, "+"), (.INT, "2"), (.OPERATOR, "*"), (.INT, "3")] =
      .ok (.binary "+" (.litInt 1) (.binary "*" (.litInt 2) (.litInt 3)), []) ∧
    tokenize "1 - 2 - 3" =
      .ok [(.INT, "1"), (.OPERATOR, "-"), (.INT, "2"), (.OPERATOR, "-"), (.INT, "3")] ∧
    parseExpressionF 20
      [(.INT, "1"), (.OPERATOR, "-"), (.INT, "2"), (.OPERATOR, "-"), (.INT, "3")] =
      .ok (.binary "-" (.binary "-" (.litInt 1) (.litInt 2)) (.litInt 3), []) := by
  exact ⟨rfl, rfl, rfl, rfl, rfl, rfl, rfl, rfl, rfl, rfl, rfl, rfl, rfl, rfl, rfl⟩

/-- Claim C6, counterexample: lexing the identifier `Ca` yields a single
token whose lexeme is `C`, not `Ca` — the partial match of the comment
marker `Cancelled` consumed the character `a` from the stream. -/
theorem c6_counterexample :
    tokenize "Ca" = .ok [(TokenType.IDENTIFIER, "C")] ∧ "C" ≠ "Ca" := by
  exact ⟨rfl, by decide⟩

/-- Claim C7, counterexample: on the input `<=` (operator at end of input)
the emitted OPERATOR token's lexeme is `<=` followed by a NUL byte, not `<=`:
`is_valid_next_char` accepts NUL as an extension character. -/
theorem c7_counterexample :
    tokenize "<=" = .ok [(TokenType.OPERATOR, "<=\x00")] ∧ "<=\x00" ≠ "<=" := by
  exact ⟨rfl, by decide⟩

/-- Claim C8, counterexample: the INT token `3000000000` denotes a value
representable in 64-bit signed range, yet the parser aborts (`std::stoi`
returns `int`, 32 bits wide, and throws `std::out_of_range`) instead of
producing a literal node. -/
theorem c8_counterexample :
    parseAtomicF 5 [(TokenType.INT, "3000000000")] =
      .error (.fatal "Unknown exception parsing int: 3000000000") ∧
    (3000000000 : Int) ≤ 2 ^ 63 - 1 ∧ 2147483647 < (3000000000 : Int) := by
  refine ⟨rfl, by norm_num, by norm_num⟩

/-- Claim C10: the token in the `{` position is discarded unchecked — the
input `fr? 1 ) ghost }`, whose then-branch opens with `)` instead of `{`,
parses to exactly the same statement as `fr? 1 { ghost }`. -/
theorem c10_open_brace_never_checked :
    tokenize "fr? 1 ) ghost \x7d" =
      .ok [(.IF, "fr?"), (.INT, "1"), (.COMPLEX, ")"), (.BREAK, "ghost"), (.COMPLEX, "\x7d")] ∧
    ((TokenType.COMPLEX, ")") : Token).2 ≠ "\x7b" ∧
    parseStatementF 20
        [(.IF, "fr?"), (.INT, "1"), (.COMPLEX, ")"), (.BREAK, "ghost"), (.COMPLEX, "\x7d")] =
      parseStatementF 20
        [(.IF, "fr?"), (.INT, "1"), (.COMPLEX, "\x7b"), (.BREAK, "ghost"), (.COMPLEX, "\x7d")] ∧
    parseStatementF 20
        [(.IF, "fr?"), (.INT, "1"), (.COMPLEX, ")"), (.BREAK, "ghost"), (.COMPLEX, "\x7d")] =
      .ok (.frOng (.litInt 1) (.compound [.ghost]) (.compound []), []) ∧
    parseStatementF 20 [(.COMPLEX, ")"), (.BREAK, "ghost"), (.COMPLEX, "\x7d")] =
      .ok (.compound [.ghost], []) := by
  exact ⟨rfl, by decide, rfl, rfl, rfl⟩

theorem lastIsYeet_nil : lastIsYeet [] = false := rfl

theorem isEmpty_and_lastIsYeet (ss : List Stmt) :
    (!ss.isEmpty && lastIsYeet ss) = lastIsYeet ss := by
  cases ss with
  | nil => rfl
  | cons s ss => simp [List.isEmpty]

/-- A successful parse_curly_compound sets the `returntype` out-parameter to
`nonnpc` exactly when the last parsed statement is a Yeet (Return). -/
theorem curly_rt {f : Nat} {st : PState} {ss : List Stmt} {rt : String} {st2 : PState}
    (h : parseCurlyCompoundF f st = .ok ((ss, rt), st2)) :
    rt = if lastIsYeet ss then "nonnpc" else "npc" := by
  cases f with
  | zero => simp [parseCurlyCompoundF] at h
  | succ f =>
    rw [parseCurlyCompoundF] at h
    cases hl : parseStmtListF f (advT st) with
    | error e => rw [hl] at h; simp at h
    | ok p =>
      obtain ⟨stmts, st1⟩ := p
      rw [hl] at h
      simp only [Except.ok.injEq, Prod.mk.injEq] at h
      obtain ⟨⟨h1, h2⟩, h3⟩ := h
      subst h1
      rw [← h2, isEmpty_and_lastIsYeet]

/-- Claim C4: given that the prototype and the body compound parse
successfully, parse_pluh fails with ParseLogic exactly when (a) the declared
return type is not `npc` and the body's last statement is not a Return, or
(b) the declared return type is `npc` and the last statement is a Return;
otherwise it yields a PluhDeclaration of that prototype and body. -/
theorem c4_return_type_check (f : Nat) (st : PState) (proto : Prototype)
    (st2 st3 : PState) (stmts : List Stmt) (rt : String)
    (hp : parsePrototypeF f (advT st) = .ok (proto, st2))
    (hb : parseCurlyCompoundF f st2 = .ok ((stmts, rt), st3)) :
    ((∃ m, parsePluhF (f+1) st = .error (.parseLogic m)) ↔
      ((proto.returnType ≠ "npc" ∧ lastIsYeet stmts = false) ∨
       (proto.returnType = "npc" ∧ lastIsYeet stmts = true))) ∧
    (¬ ((proto.returnType ≠ "npc" ∧ lastIsYeet stmts = false) ∨
        (proto.returnType = "npc" ∧ lastIsYeet stmts = true)) →
      parsePluhF (f+1) st = .ok (⟨proto, some (.compound stmts)⟩, st3)) := by
  have hrt := curly_rt hb
  subst hrt
  simp only [parsePluhF, hp, hb]
  by_cases hy : lastIsYeet stmts = true
  · by_cases hr : proto.returnType = "npc"
    · simp [hy, hr]
    · simp [hy, hr]
  · replace hy : lastIsYeet stmts = false := by
      cases hxy : lastIsYeet stmts
      · rfl
      · exact absurd hxy hy
    by_cases hr : proto.returnType = "npc"
    · simp [hy, hr]
    · simp [hy, hr]

/-- Witness for C4 at the input `pluh f() : int { ghost }`: the prototype
declares `int` but the body does not end in a Return, so parse_pluh rejects. -/
theorem c4_return_type_check_witness :
    parsePrototypeF 10 (advT
        [(.DEF, "pluh"), (.IDENTIFIER, "f"), (.COMPLEX, "("), (.COMPLEX, ")"),
         (.COMPLEX, ":"), (.IDENTIFIER, "int"), (.COMPLEX, "\x7b"), (.BREAK, "ghost"),
         (.COMPLEX, "\x7d")]) =
      .ok (⟨"f", [], "int"⟩, [(.COMPLEX, "\x7b"), (.BREAK, "ghost"), (.COMPLEX, "\x7d")]) ∧
    parseCurlyCompoundF 10 [(.COMPLEX, "\x7b"), (.BREAK, "ghost"), (.COMPLEX, "\x7d")] =
      .ok (([.ghost], "npc"), []) ∧
    (∃ m, parsePluhF 11
        [(.DEF, "pluh"), (.IDENTIFIER, "f"), (.COMPLEX, "("), (.COMPLEX, ")"),
         (.COMPLEX, ":"), (.IDENTIFIER, "int"), (.COMPLEX, "\x7b"), (.BREAK, "ghost"),
         (.COMPLEX, "\x7d")] = .error (.parseLogic m)) := by
  refine ⟨rfl, rfl, ?_⟩
  exact (c4_return_type_check 10
    [(.DEF, "pluh"), (.IDENTIFIER, "f"), (.COMPLEX, "("), (.COMPLEX, ")"),
     (.COMPLEX, ":"), (.IDENTIFIER, "int"), (.COMPLEX, "\x7b"), (.BREAK, "ghost"),
     (.COMPLEX, "\x7d")]
    ⟨"f", [], "int"⟩
    [(.COMPLEX, "\x7b"), (.BREAK, "ghost"), (.COMPLEX, "\x7d")] [] [.ghost] "npc"
    rfl rfl).1.mpr (Or.inl ⟨by decide, rfl⟩)

theorem scanOpF_stop (f : Nat) (op : List Char) (c : Char) (rest : List Char)
    (h : isValidNextChar (op.getLastD '\x00') c = false) :
    scanOpF (f+1) op c rest = (op, c, rest) := by
  rw [scanOpF, h]
  rfl

/-- The operator branch of get_token for a single-character operator whose
following character is not a valid extension. -/
theorem getTokenCore_op (c c2 : Char) (rest2 : List Char)
    (h1 : c ≠ '\'') (h2 : c ≠ '"') (h3 : (isDigitS c || c = '.') = false)
    (h4 : isAlphaS c = false) (h5 : c ≠ '\x00') (h6 : isOperatorChar c = true)
    (hv : isValidNextChar c c2 = false) :
    getTokenCore ⟨c, c2 :: rest2⟩ = .ok ((.OPERATOR, String.mk [c]), ⟨c2, rest2⟩) := by
  have hv2 : isValidNextChar (List.getLastD [c] '\x00') c2 = false := by
    simpa using hv
  unfold getTokenCore
  simp only [h3, h4, Bool.false_eq_true, if_false]
  rw [if_neg h1, if_neg h2, if_neg h5]
  simp only [nextChar, h6]
  rw [show rest2.length + 2 = (rest2.length + 1) + 1 from rfl,
      scanOpF_stop _ _ _ _ hv2]
  simp

/-- Claim C7, amended: `<=` folds into a single OPERATOR token (with lexeme
exactly `<=` when another token follows, and with a trailing NUL byte when it
sits at the very end of the input); `<` space `=` lexes as two OPERATOR
tokens; and an arithmetic operator `+ - * / %` is never extended when the
following byte is not NUL. -/
theorem c7_amended :
    tokenize "1 <= 2" = .ok [(.INT, "1"), (.OPERATOR, "<="), (.INT, "2")] ∧
    tokenize "<=" = .ok [(.OPERATOR, "<=\x00")] ∧
    tokenize "< =" = .ok [(.OPERATOR, "<"), (.OPERATOR, "=\x00")] ∧
    (∀ c, c ∈ (['+', '-', '*', '/', '%'] : List Char) →
      ∀ c2 rest2, c2 ≠ '\x00' →
        getTokenCore ⟨c, c2 :: rest2⟩ = .ok ((.OPERATOR, String.mk [c]), ⟨c2, rest2⟩)) := by
  refine ⟨rfl, rfl, rfl, ?_⟩
  intro c hc c2 rest2 h2
  have hval : ∀ cc : Char, cc = '+' ∨ cc = '-' ∨ cc = '*' ∨ cc = '/' ∨ cc = '%' →
      isValidNextChar cc c2 = false := by
    intro cc hcc
    have : (c2 = '\x00') = False := by simp [h2]
    rcases hcc with rfl | rfl | rfl | rfl | rfl <;> simp [isValidNextChar, this]
  simp only [List.mem_cons, List.not_mem_nil, or_false] at hc
  rcases hc with rfl | rfl | rfl | rfl | rfl <;>
    exact getTokenCore_op _ _ _ (by decide) (by decide) (by decide) (by decide)
      (by decide) (by decide) (hval _ (by tauto))

/-- Witness for the universal part of the amended C7 at `+` followed by `1`. -/
theorem c7_amended_witness :
    ('+' : Char) ∈ (['+', '-', '*', '/', '%'] : List Char) ∧ ('1' : Char) ≠ '\x00' ∧
    getTokenCore ⟨'+', ['1']⟩ = .ok ((.OPERATOR, "+"), ⟨'1', []⟩) := by
  refine ⟨by decide, by decide, ?_⟩
  exact c7_amended.2.2.2 '+' (by decide) '1' [] (by decide)

/-- Claim C8, amended: integer literal payloads are C `int` (32-bit): an INT
token whose digit string denotes a value of at most 2147483647 becomes a
`Lit(int)` node carrying exactly that value, and a larger value makes
`std::stoi` throw, which the catch-all handler turns into a fatal abort. -/
theorem c8_amended :
    (∀ f st, (peekT st).1 = TokenType.INT →
      natOfDigits (peekT st).2.data 0 ≤ 2147483647 →
      parseAtomicF (f+1) st = .ok (.litInt (natOfDigits (peekT st).2.data 0), advT st)) ∧
    (∀ f st, (peekT st).1 = TokenType.INT →
      2147483647 < natOfDigits (peekT st).2.data 0 →
      parseAtomicF (f+1) st =
        .error (.fatal ("Unknown exception parsing int: " ++ (peekT st).2))) := by
  constructor
  · intro f st h hv
    rw [parseAtomicF, h]
    simp only [parseIntP, stoiInt]
    rw [if_pos hv]
    rfl
  · intro f st h hv
    rw [parseAtomicF, h]
    simp only [parseIntP, stoiInt]
    rw [if_neg (by omega)]

/-- Witness for the amended C8 at the token (INT, "1337"). -/
theorem c8_amended_witness :
    (peekT [((TokenType.INT, "1337") : Token)]).1 = TokenType.INT ∧
    natOfDigits (peekT [((TokenType.INT, "1337") : Token)]).2.data 0 ≤ 2147483647 ∧
    parseAtomicF 1 [(TokenType.INT, "1337")] = .ok (.litInt 1337, []) := by
  refine ⟨rfl, by decide, ?_⟩
  exact c8_amended.1 0 [(TokenType.INT, "1337")] rfl (by decide)

/-- Every statement any of the statement parsers publishes satisfies the
structural invariant, simultaneously for the whole mutually recursive family. -/
theorem stmt_parsers_good (f : Nat) :
    (∀ st r st2, parseStatementF f st = .ok (r, st2) → GoodStmt r) ∧
    (∀ st ss st2, parseStmtListF f st = .ok (ss, st2) → ∀ s ∈ ss, GoodStmt s) ∧
    (∀ st ss rt st2, parseCurlyCompoundF f st = .ok ((ss, rt), st2) → ∀ s ∈ ss, GoodStmt s) ∧
    (∀ st r st2, parseFrOngJustLikeThatF f st = .ok (r, st2) → GoodStmt r) ∧
    (∀ st r st2, parseHoldUpF f st = .ok (r, st2) → GoodStmt r) ∧
    (∀ st r st2, parseCookUpF f st = .ok (r, st2) → GoodStmt r) ∧
    (∀ st r st2, parseAssignOrCallF f st = .ok (r, st2) → GoodStmt r) ∧
    (∀ st r st2, parseYeetF f st = .ok (r, st2) → GoodStmt r) := by
  induction f with
  | zero =>
    refine ⟨?_, ?_, ?_, ?_, ?_, ?_, ?_, ?_⟩
    · intro st r st2 h; simp [parseStatementF] at h
    · intro st ss st2 h; simp [parseStmtListF] at h
    · intro st ss rt st2 h; simp [parseCurlyCompoundF] at h
    · intro st r st2 h; simp [parseFrOngJustLikeThatF] at h
    · intro st r st2 h; simp [parseHoldUpF] at h
    · intro st r st2 h; simp [parseCookUpF] at h
    · intro st r st2 h; simp [parseAssignOrCallF] at h
    · intro st r st2 h; simp [parseYeetF] at h
  | succ f ih =>
    obtain ⟨ihS, ihL, ihC, ihF, ihW, ihK, ihA, ihY⟩ := ih
    refine ⟨?_, ?_, ?_, ?_, ?_, ?_, ?_, ?_⟩
    · -- parseStatementF
      intro st r st2 h
      rw [parseStatementF] at h
      split at h
      · exact ihK _ _ _ h
      · exact ihA _ _ _ h
      · exact ihF _ _ _ h
      · exact ihW _ _ _ h
      · simp [parseGhostP] at h; exact h.1 ▸ GoodStmt.ghost
      · simp [parseRizzP] at h; exact h.1 ▸ GoodStmt.rizz
      · exact ihY _ _ _ h
      · split at h
        · simp at h
        · rename_i ss rt2 st1 heq
          simp only [Except.ok.injEq, Prod.mk.injEq] at h
          exact h.1 ▸ GoodStmt.compound ss (ihC _ _ _ _ heq)
      · simp at h
    · -- parseStmtListF
      intro st ss st2 h
      rw [parseStmtListF] at h
      split at h
      · simp only [Except.ok.injEq, Prod.mk.injEq] at h
        rw [← h.1]
        intro s hs
        exact absurd hs (List.not_mem_nil s)
      · split at h
        · simp at h
        · rename_i s1 st1 heq1
          split at h
          · simp at h
          · rename_i ss1 st3 heq2
            simp only [Except.ok.injEq, Prod.mk.injEq] at h
            rw [← h.1]
            intro s hs
            rcases List.mem_cons.mp hs with rfl | hmem
            · exact ihS _ _ _ heq1
            · exact ihL _ _ _ heq2 s hmem
    · -- parseCurlyCompoundF
      intro st ss rt st2 h
      rw [parseCurlyCompoundF] at h
      split at h
      · simp at h
      · rename_i stmts st1 heq
        simp only [Except.ok.injEq, Prod.mk.injEq] at h
        exact h.1.1 ▸ ihL _ _ _ heq
    · -- parseFrOngJustLikeThatF
      intro st r st2 h
      rw [parseFrOngJustLikeThatF] at h
      split at h
      · simp at h
      · rename_i cond st1 heqE
        split at h
        · simp at h
        · rename_i ts rt2 stT heqC
          split at h
          · simp only [Except.ok.injEq, Prod.mk.injEq] at h
            refine h.1 ▸ GoodStmt.frOng cond ts (.compound []) (ihC _ _ _ _ heqC) ?_
            exact GoodStmt.compound [] (fun s hs => absurd hs (List.not_mem_nil s))
          · split at h
            · simp at h
            · rename_i els st3 heqS
              simp only [Except.ok.injEq, Prod.mk.injEq] at h
              exact h.1 ▸ GoodStmt.frOng cond ts els (ihC _ _ _ _ heqC) (ihS _ _ _ heqS)
    · -- parseHoldUpF
      intro st r st2 h
      rw [parseHoldUpF] at h
      split at h
      · simp at h
      · rename_i cond st1 heqE
        split at h
        · simp at h
        · rename_i bs rt2 stB heqC
          simp only [Except.ok.injEq, Prod.mk.injEq] at h
          exact h.1 ▸ GoodStmt.holdUp cond bs (ihC _ _ _ _ heqC)
    · -- parseCookUpF
      intro st r st2 h
      rw [parseCookUpF] at h
      split at h
      · split at h
        · simp at h
        · simp only [Except.ok.injEq, Prod.mk.injEq] at h
          exact h.1 ▸ GoodStmt.cookedUpAssign _ _ _
      · simp only [Except.ok.injEq, Prod.mk.injEq] at h
        exact h.1 ▸ GoodStmt.cookedUp _ _
    · -- parseAssignOrCallF
      intro st r st2 h
      rw [parseAssignOrCallF] at h
      split at h
      · split at h
        · simp at h
        · simp only [Except.ok.injEq, Prod.mk.injEq] at h
          exact h.1 ▸ GoodStmt.assign _ _
      · split at h
        · split at h
          · simp at h
          · simp only [Except.ok.injEq, Prod.mk.injEq] at h
            exact h.1 ▸ GoodStmt.assign _ _
        · simp at h
    · -- parseYeetF
      intro st r st2 h
      rw [parseYeetF] at h
      split at h
      · simp at h
      · simp only [Except.ok.injEq, Prod.mk.injEq] at h
        exact h.1 ▸ GoodStmt.yeet _

/-- A successfully parsed function definition satisfies the declaration-level
invariant: its body is a well-formed Compound. -/
theorem pluh_good {f : Nat} {st : PState} {d : PluhDeclaration} {st2 : PState}
    (h : parsePluhF f st = .ok (d, st2)) : GoodDecl d := by
  cases f with
  | zero => simp [parsePluhF] at h
  | succ f =>
    rw [parsePluhF] at h
    split at h
    · simp at h
    · rename_i proto st1 heqP
      split at h
      · simp at h
      · rename_i ss rt st3 heqC
        split at h
        · simp at h
        · simp only [Except.ok.injEq, Prod.mk.injEq] at h
          rw [← h.1]
          intro b hb
          simp only [Option.some.injEq] at hb
          refine ⟨⟨ss, hb.symm⟩, ?_⟩
          rw [← hb]
          exact GoodStmt.compound ss ((stmt_parsers_good f).2.2.1 _ _ _ _ heqC)

/-- An external declaration has no body, so it satisfies the invariant. -/
theorem plug_good {f : Nat} {st : PState} {d : PluhDeclaration} {st2 : PState}
    (h : parsePlugF f st = .ok (d, st2)) : GoodDecl d := by
  cases f with
  | zero => simp [parsePlugF] at h
  | succ f =>
    rw [parsePlugF] at h
    split at h
    · simp at h
    · simp only [Except.ok.injEq, Prod.mk.injEq] at h
      rw [← h.1]
      intro b hb
      simp at hb

/-- Every declaration published by parse_declarations satisfies the
invariant. -/
theorem decls_good (f : Nat) :
    ∀ st ds st2, parseDeclarationsF f st = .ok (ds, st2) → ∀ d ∈ ds, GoodDecl d := by
  induction f with
  | zero => intro st ds st2 h; simp [parseDeclarationsF] at h
  | succ f ih =>
    intro st ds st2 h
    rw [parseDeclarationsF] at h
    split at h
    · split at h
      · simp at h
      · rename_i d1 st1 heqD
        split at h
        · simp at h
        · rename_i ds1 st3 heqL
          simp only [Except.ok.injEq, Prod.mk.injEq] at h
          rw [← h.1]
          intro d hd
          rcases List.mem_cons.mp hd with rfl | hmem
          · exact pluh_good heqD
          · exact ih _ _ _ heqL d hmem
    · split at h
      · split at h
        · simp at h
        · rename_i d1 st1 heqD
          split at h
          · simp at h
          · rename_i ds1 st3 heqL
            simp only [Except.ok.injEq, Prod.mk.injEq] at h
            rw [← h.1]
            intro d hd
            rcases List.mem_cons.mp hd with rfl | hmem
            · exact plug_good heqD
            · exact ih _ _ _ heqL d hmem
      · split at h
        · simp only [Except.ok.injEq, Prod.mk.injEq] at h
          rw [← h.1]
          intro d hd
          exact absurd hd (List.not_mem_nil d)
        · simp at h

/-- Claim C9: in every successfully parsed program, the then-branch of every
If, the body of every While, and every present function body is a Compound
(recursively, throughout the AST). -/
theorem c9_ast_invariant (f : Nat) (st : PState) (tea : TeaSpill) (st2 : PState)
    (h : parseTeaF f st = .ok (tea, st2)) :
    ∀ d ∈ tea.decls, ∀ b, d.body = some b →
      (∃ ss, b = Stmt.compound ss) ∧ GoodStmt b := by
  cases f with
  | zero => simp [parseTeaF] at h
  | succ f =>
    rw [parseTeaF] at h
    split at h
    · simp at h
    · simp only [] at h
      split at h
      · simp at h
      · rename_i ds st3 heqD
        simp only [Except.ok.injEq, Prod.mk.injEq] at h
        rw [← h.1]
        intro d hd
        exact decls_good f _ _ _ heqD d hd

/-- Witness for C9: the program
`spillingTheTeaAbout demo pluh main() : int { periodt 0 } plug out(x : int) : npc`
parses, and the body of `main` is a well-formed Compound. -/
theorem c9_ast_invariant_witness :
    parseTeaF 30
        [(.PROGRAM, "spillingTheTeaAbout"), (.IDENTIFIER, "demo"), (.DEF, "pluh"),
         (.IDENTIFIER, "main"), (.COMPLEX, "("), (.COMPLEX, ")"), (.COMPLEX, ":"),
         (.IDENTIFIER, "int"), (.COMPLEX, "\x7b"), (.RETURN, "periodt"), (.INT, "0"),
         (.COMPLEX, "\x7d"), (.EXTERN, "plug"), (.IDENTIFIER, "out"), (.COMPLEX, "("),
         (.IDENTIFIER, "x"), (.COMPLEX, ":"), (.IDENTIFIER, "int"), (.COMPLEX, ")"),
         (.COMPLEX, ":"), (.IDENTIFIER, "npc")] =
      .ok (⟨"demo",
            [⟨⟨"main", [], "int"⟩, some (.compound [.yeet (.litInt 0)])⟩,
             ⟨⟨"out", [("x", "int")], "npc"⟩, none⟩]⟩, []) ∧
    (∃ ss, Stmt.compound [Stmt.yeet (Expr.litInt 0)] = Stmt.compound ss) ∧
    GoodStmt (Stmt.compound [Stmt.yeet (Expr.litInt 0)]) := by
  refine ⟨rfl, ?_⟩
  exact c9_ast_invariant 30
    [(.PROGRAM, "spillingTheTeaAbout"), (.IDENTIFIER, "demo"), (.DEF, "pluh"),
     (.IDENTIFIER, "main"), (.COMPLEX, "("), (.COMPLEX, ")"), (.COMPLEX, ":"),
     (.IDENTIFIER, "int"), (.COMPLEX, "\x7b"), (.RETURN, "periodt"), (.INT, "0"),
     (.COMPLEX, "\x7d"), (.EXTERN, "plug"), (.IDENTIFIER, "out"), (.COMPLEX, "("),
     (.IDENTIFIER, "x"), (.COMPLEX, ":"), (.IDENTIFIER, "int"), (.COMPLEX, ")"),
     (.COMPLEX, ":"), (.IDENTIFIER, "npc")]
    ⟨"demo",
      [⟨⟨"main", [], "int"⟩, some (.compound [.yeet (.litInt 0)])⟩,
       ⟨⟨"out", [("x", "int")], "npc"⟩, none⟩]⟩ [] rfl
    ⟨⟨"main", [], "int"⟩, some (.compound [.yeet (.litInt 0)])⟩
    (List.Mem.head _) (.compound [.yeet (.litInt 0)]) rfl

theorem alpha_not_space {c : Char} (h : isAlphaS c = true) : isSpaceS c = false := by
  cases hS : isSpaceS c with
  | false => rfl
  | true =>
    exfalso
    simp only [isAlphaS, Bool.or_eq_true, Bool.and_eq_true, decide_eq_true_eq] at h
    simp only [isSpaceS, Bool.or_eq_true, Bool.and_eq_true, decide_eq_true_eq] at hS
    omega

theorem alpha_not_digit {c : Char} (h : isAlphaS c = true) : isDigitS c = false := by
  cases hD : isDigitS c with
  | false => rfl
  | true =>
    exfalso
    simp only [isAlphaS, Bool.or_eq_true, Bool.and_eq_true, decide_eq_true_eq] at h
    simp only [isDigitS, Bool.and_eq_true, decide_eq_true_eq] at hD
    omega

theorem digit_not_space {c : Char} (h : isDigitS c = true) : isSpaceS c = false := by
  cases hS : isSpaceS c with
  | false => rfl
  | true =>
    exfalso
    simp only [isDigitS, Bool.and_eq_true, decide_eq_true_eq] at h
    simp only [isSpaceS, Bool.or_eq_true, Bool.and_eq_true, decide_eq_true_eq] at hS
    omega

theorem digit_not_alpha {c : Char} (h : isDigitS c = true) : isAlphaS c = false := by
  cases hA : isAlphaS c with
  | false => rfl
  | true => rw [alpha_not_digit hA] at h; exact absurd h (by decide)

/-- A character of a decidably false character class is not any particular
character of that class complement, by substitution. -/
theorem ne_of_class_true {c d : Char} {p : Char → Bool} (h : p c = true)
    (hd : p d = false) : c ≠ d := by
  intro e
  rw [e, hd] at h
  exact absurd h (by decide)

theorem skipWs_one {c : Char} (cs : List Char) (h : isSpaceS c = false) :
    skipWs ' ' (c :: cs) = (c, cs) := by
  rw [skipWs.eq_def, if_pos (show isSpaceS ' ' = true from rfl)]
  show skipWs c cs = (c, cs)
  rw [skipWs.eq_def, h]
  rfl

/-- is_keyword fails without touching the state when the very first
comparison fails. -/
theorem isKeyword_head_ne {c : Char} {rest : List Char} {k : Char} {ks : List Char}
    (h : c ≠ k) : isKeyword (k :: ks) ⟨c, rest⟩ = (false, ⟨c, rest⟩) := by
  unfold isKeyword isKeywordGo
  simp [h]

/-- The comment prefix does nothing on a non-space first character that
matches neither comment marker's first letter. -/
theorem commentStep_skip (c : Char) (cs : List Char)
    (hs : isSpaceS c = false) (hC : c ≠ 'C') (hB : c ≠ 'B') :
    commentStep ⟨' ', c :: cs⟩ = (false, ⟨c, cs⟩) := by
  have hCd : "Cancelled".data = 'C' :: "ancelled".data := rfl
  have hBd : "Blocked".data = 'B' :: "locked".data := rfl
  unfold commentStep
  simp only [hCd, hBd, skipWs_one cs hs, isKeyword_head_ne hC, isKeyword_head_ne hB,
    Bool.false_eq_true, if_false]

theorem getTokenF_start (n : Nat) (c : Char) (cs : List Char)
    (hs : isSpaceS c = false) (hC : c ≠ 'C') (hB : c ≠ 'B') :
    getTokenF (n+1) ⟨' ', c :: cs⟩ = getTokenCore ⟨c, cs⟩ := by
  rw [getTokenF, commentStep_skip c cs hs hC hB]

/-- The END_OF_FILE state is a fixed point of get_token. -/
theorem getTokenF_eof (n : Nat) :
    getTokenF (n+1) ⟨'\x00', []⟩ = .ok ((.END_OF_FILE, ""), ⟨'\x00', []⟩) := by
  rw [getTokenF]
  rfl

/-- The identifier loop consumes an entire tail of identifier characters and
then reads the NUL past the end of the buffer. -/
theorem scanIdent_all (cs : List Char) : ∀ acc : List Char,
    (∀ x ∈ cs, isIdentTail x = true) →
    scanIdent cs acc = (acc ++ cs, '\x00', []) := by
  induction cs with
  | nil => intro acc h; simp [scanIdent]
  | cons c cs ih =>
    intro acc h
    have hc := h c (List.mem_cons_self c cs)
    rw [scanIdent]
    simp only [isIdentTail] at hc
    simp only [hc, if_true]
    rw [ih (acc ++ [c]) (fun x hx => h x (List.mem_cons_of_mem c hx))]
    simp

/-- The core dispatch on an alphabetic character: scan an identifier, look
the lexeme up in the keyword table. -/
theorem getTokenCore_ident (c : Char) (cs : List Char) (hc : isAlphaS c = true)
    (htl : ∀ x ∈ cs, isIdentTail x = true) :
    getTokenCore ⟨c, cs⟩ =
      .ok (((lookupTable (String.mk (c :: cs))).getD .IDENTIFIER, String.mk (c :: cs)),
        ⟨'\x00', []⟩) := by
  have h1 : c ≠ '\'' := ne_of_class_true hc (by decide)
  have h2 : c ≠ '"' := ne_of_class_true hc (by decide)
  have hdot : c ≠ '.' := ne_of_class_true hc (by decide)
  have h3 : (isDigitS c || c = '.') = false := by
    simp [alpha_not_digit hc, hdot]
  unfold getTokenCore
  rw [if_neg h1, if_neg h2]
  simp only [h3, Bool.false_eq_true, if_false, hc, if_true]
  rw [scanIdent_all cs [c] htl]
  simp

/-- No keyword of the table maps to END_OF_FILE. -/
theorem lookup_ne_eof (s : String) :
    (lookupTable s).getD .IDENTIFIER ≠ TokenType.END_OF_FILE := by
  unfold lookupTable
  cases h : table.find? (fun p => p.1 = s) with
  | none => simp
  | some p =>
    have hm := List.mem_of_find?_eq_some h
    have : ∀ q ∈ table, q.2 ≠ TokenType.END_OF_FILE := by decide
    simpa using this p hm

/-- When the first get_token call returns a single token and leaves the
scanner at the end-of-file fixed point, the token stream is that one token. -/
theorem tokenize_one (s : String) (t : Token)
    (h : getTokenF (s.data.length + 2) ⟨' ', s.data⟩ = .ok (t, ⟨'\x00', []⟩))
    (ht : t.1 ≠ TokenType.END_OF_FILE) :
    tokenize s = .ok [t] := by
  unfold tokenize initState
  rw [show s.length + 2 = (s.length + 1) + 1 from rfl, tokenizeF]
  rw [show getToken ⟨' ', s.data⟩ = getTokenF (s.data.length + 2) ⟨' ', s.data⟩ from rfl, h]
  simp only [ht, if_false]
  rw [show s.length + 1 = s.length + 0 + 1 from rfl, tokenizeF]
  rw [show getToken ⟨'\x00', []⟩ = getTokenF 2 ⟨'\x00', []⟩ from rfl, getTokenF_eof 1]
  rfl

/-- The numeric loop on a digit head and an all-digit tail: the whole run is
consumed, the `decimal_found` flag never changes, and the scanner ends on the
NUL past the end of the buffer. -/
theorem scanNum_digits (cs : List Char) : ∀ (c : Char) (dec : Bool) (acc : List Char),
    isDigitS c = true → (∀ x ∈ cs, isDigitS x = true) →
    scanNum c cs dec acc =
      .ok ((if dec then .FLOAT else .INT, String.mk (acc ++ c :: cs)), ⟨'\x00', []⟩) := by
  induction cs with
  | nil =>
    intro c dec acc hc _
    have h0 : c ≠ '\x00' := ne_of_class_true hc (by decide)
    have hdot : c ≠ '.' := ne_of_class_true hc (by decide)
    unfold scanNum
    rw [if_neg h0, if_neg (fun hand => hdot hand.1)]
    simp [hdot]
  | cons c2 cs ih =>
    intro c dec acc hc hall
    have h0 : c ≠ '\x00' := ne_of_class_true hc (by decide)
    have hdot : c ≠ '.' := ne_of_class_true hc (by decide)
    have hc2 := hall c2 (List.mem_cons_self c2 cs)
    unfold scanNum
    rw [if_neg h0, if_neg (fun hand => hdot hand.1)]
    simp only [hdot, decide_eq_true_eq, Bool.or_eq_true, hc2, Bool.true_or, if_true,
      decide_False, Bool.or_false]
    rw [ih c2 dec (acc ++ [c]) hc2 (fun x hx => hall x (List.mem_cons_of_mem c2 hx))]
    simp

/-- The numeric loop at a dot with `decimal_found` still false: the flag
flips and the remaining digits are consumed as a FLOAT. -/
theorem scanNum_dot (d2 : List Char) (acc : List Char)
    (h : ∀ x ∈ d2, isDigitS x = true) :
    scanNum '.' d2 false acc =
      .ok ((.FLOAT, String.mk (acc ++ '.' :: d2)), ⟨'\x00', []⟩) := by
  cases d2 with
  | nil => simp [scanNum]
  | cons x xs =>
    have hx := h x (List.mem_cons_self x xs)
    unfold scanNum
    rw [if_neg (by decide), if_neg (by simp)]
    simp only [hx, Bool.true_or, if_true, decide_True, Bool.or_true, Bool.or_eq_true,
      decide_eq_true_eq]
    rw [scanNum_digits xs x true (acc ++ ['.']) hx (fun y hy => h y (List.mem_cons_of_mem x hy))]
    simp

/-- The numeric loop on digits, one dot, then digits: a FLOAT token covering
the whole run. -/
theorem scanNum_digits_dot (d1 : List Char) : ∀ (c : Char) (acc d2 : List Char),
    isDigitS c = true → (∀ x ∈ d1, isDigitS x = true) → (∀ x ∈ d2, isDigitS x = true) →
    scanNum c (d1 ++ '.' :: d2) false acc =
      .ok ((.FLOAT, String.mk (acc ++ c :: (d1 ++ '.' :: d2))), ⟨'\x00', []⟩) := by
  induction d1 with
  | nil =>
    intro c acc d2 hc _ h2
    have h0 : c ≠ '\x00' := ne_of_class_true hc (by decide)
    have hdot : c ≠ '.' := ne_of_class_true hc (by decide)
    unfold scanNum
    rw [if_neg h0, if_neg (fun hand => hdot hand.1)]
    simp only [hdot, decide_False, Bool.or_false, List.nil_append]
    split
    · rw [scanNum_dot d2 (acc ++ [c]) h2]
      simp
    · rename_i hcond
      exact absurd (by decide) hcond
  | cons y ys ih =>
    intro c acc d2 hc h1 h2
    have h0 : c ≠ '\x00' := ne_of_class_true hc (by decide)
    have hdot : c ≠ '.' := ne_of_class_true hc (by decide)
    have hy := h1 y (List.mem_cons_self y ys)
    unfold scanNum
    rw [if_neg h0, if_neg (fun hand => hdot hand.1)]
    simp only [hdot, decide_False, Bool.or_false, List.cons_append, hy, Bool.true_or, if_true]
    rw [ih y (acc ++ [c]) d2 hy (fun x hx => h1 x (List.mem_cons_of_mem y hx)) h2]
    simp

/-- The core dispatch routes a digit-or-dot first character into the numeric
loop with an empty lexeme and `decimal_found` false. -/
theorem getTokenCore_num (c : Char) (cs : List Char)
    (h1 : c ≠ '\'') (h2 : c ≠ '"') (hdd : (isDigitS c || c = '.') = true) :
    getTokenCore ⟨c, cs⟩ = scanNum c cs false [] := by
  unfold getTokenCore
  rw [if_neg h1, if_neg h2]
  simp only [hdd, if_true]

/-- The string loop consumes the body, stops at the closing quote, and reads
one character past it. -/
theorem scanStr_ok (body : List Char) : ∀ (acc tail : List Char),
    (∀ x ∈ body, x ≠ '"' ∧ x ≠ '\x00') →
    scanStr (nextChar (body ++ '"' :: tail)).1 (nextChar (body ++ '"' :: tail)).2 acc =
      .ok ((.STRING, String.mk (acc ++ body)), ⟨(nextChar tail).1, (nextChar tail).2⟩) := by
  induction body with
  | nil =>
    intro acc tail h
    show scanStr '"' tail acc = _
    rw [scanStr.eq_def, if_pos rfl]
    simp
  | cons b bs ih =>
    intro acc tail h
    have hb := h b (List.mem_cons_self b bs)
    show scanStr b (bs ++ '"' :: tail) acc = _
    rw [scanStr.eq_def, if_neg hb.1, if_neg hb.2]
    obtain ⟨c2, rest2, heq⟩ : ∃ c2 rest2, bs ++ '"' :: tail = c2 :: rest2 := by
      cases bs with
      | nil => exact ⟨_, _, rfl⟩
      | cons x xs => exact ⟨_, _, rfl⟩
    rw [heq]
    show scanStr c2 rest2 (acc ++ [b]) = _
    have hih := ih (acc ++ [b]) tail (fun x hx => h x (List.mem_cons_of_mem b hx))
    rw [heq] at hih
    exact hih.trans (by simp)

/-- Claim C6, amended round-trip: lexing a lone identifier whose first letter
is neither `C` nor `B`, or a lone integer, float, or string literal, yields a
single token whose lexeme is the source (quotes stripped for strings),
followed by END_OF_FILE.  (Identifiers starting with `C` or `B` can lose
characters to the partial comment-marker match, which advances the stream.) -/
theorem c6_amended :
    (∀ c cs, isAlphaS c = true → c ≠ 'C' → c ≠ 'B' →
      (∀ x ∈ cs, isIdentTail x = true) →
      tokenize (String.mk (c :: cs)) =
        .ok [((lookupTable (String.mk (c :: cs))).getD .IDENTIFIER, String.mk (c :: cs))]) ∧
    (∀ c cs, isDigitS c = true → (∀ x ∈ cs, isDigitS x = true) →
      tokenize (String.mk (c :: cs)) = .ok [(.INT, String.mk (c :: cs))]) ∧
    (∀ d1 d2, (∀ x ∈ d1, isDigitS x = true) → (∀ x ∈ d2, isDigitS x = true) →
      tokenize (String.mk (d1 ++ '.' :: d2)) =
        .ok [(.FLOAT, String.mk (d1 ++ '.' :: d2))]) ∧
    (∀ body, (∀ x ∈ body, x ≠ '"' ∧ x ≠ '\x00') →
      tokenize (String.mk ('"' :: body ++ ['"'])) = .ok [(.STRING, String.mk body)]) := by
  refine ⟨?_, ?_, ?_, ?_⟩
  · -- identifiers
    intro c cs hca hC hB htl
    apply tokenize_one
    · exact (getTokenF_start (cs.length + 2) c cs (alpha_not_space hca) hC hB).trans
        (getTokenCore_ident c cs hca htl)
    · exact lookup_ne_eof _
  · -- integer literals
    intro c cs hcd hall
    apply tokenize_one
    · refine (getTokenF_start (cs.length + 2) c cs (digit_not_space hcd)
        (ne_of_class_true hcd (by decide)) (ne_of_class_true hcd (by decide))).trans ?_
      refine (getTokenCore_num c cs (ne_of_class_true hcd (by decide))
        (ne_of_class_true hcd (by decide)) (by simp [hcd])).trans ?_
      have h := scanNum_digits cs c false [] hcd hall
      simpa using h
    · exact fun h => nomatch h
  · -- float literals
    intro d1 d2 h1 h2
    cases d1 with
    | nil =>
      apply tokenize_one
      · refine (getTokenF_start (d2.length + 2) '.' d2 (by decide) (by decide)
          (by decide)).trans ?_
        refine (getTokenCore_num '.' d2 (by decide) (by decide) (by decide)).trans ?_
        have h := scanNum_dot d2 [] h2
        simpa using h
      · exact fun h => nomatch h
    | cons y ys =>
      have hy := h1 y (List.mem_cons_self y ys)
      apply tokenize_one
      · refine (getTokenF_start ((ys ++ '.' :: d2).length + 2) y (ys ++ '.' :: d2)
          (digit_not_space hy) (ne_of_class_true hy (by decide))
          (ne_of_class_true hy (by decide))).trans ?_
        refine (getTokenCore_num y (ys ++ '.' :: d2) (ne_of_class_true hy (by decide))
          (ne_of_class_true hy (by decide)) (by simp [hy])).trans ?_
        have h := scanNum_digits_dot ys y [] d2 hy
          (fun x hx => h1 x (List.mem_cons_of_mem y hx)) h2
        simpa using h
      · exact fun h => nomatch h
  · -- string literals
    intro body h
    apply tokenize_one
    · refine (getTokenF_start ((body ++ ['"']).length + 2) '"' (body ++ ['"'])
        (by decide) (by decide) (by decide)).trans ?_
      refine (show getTokenCore ⟨'"', body ++ ['"']⟩ =
        scanStr (nextChar (body ++ ['"'])).1 (nextChar (body ++ ['"'])).2 [] from rfl).trans ?_
      have hs := scanStr_ok body [] [] h
      simpa using hs
    · exact fun h => nomatch h

/-- Witness for the amended C6: the identifier `ab`, the integer `42`, the
float `1.5` and the string literal `"hi"` all round-trip. -/
theorem c6_amended_witness :
    isAlphaS 'a' = true ∧ ('a' : Char) ≠ 'C' ∧ ('a' : Char) ≠ 'B' ∧
    tokenize "ab" = .ok [(TokenType.IDENTIFIER, "ab")] ∧
    tokenize "42" = .ok [(TokenType.INT, "42")] ∧
    tokenize "1.5" = .ok [(TokenType.FLOAT, "1.5")] ∧
    tokenize "\"hi\"" = .ok [(TokenType.STRING, "hi")] := by
  refine ⟨by decide, by decide, by decide, ?_, ?_, ?_, ?_⟩
  · exact c6_amended.1 'a' ['b'] (by decide) (by decide) (by decide) (by decide)
  · exact c6_amended.2.1 '4' ['2'] (by decide) (by decide)
  · exact c6_amended.2.2.1 ['1'] ['5'] (by decide) (by decide)
  · exact c6_amended.2.2.2 ['h', 'i'] (by decide)

end SLang
